import Mathlib

/-!
Verification development for the `system_config` package of the
multiarch-operator repository (Go).  The Go sources are shallowly embedded:

* Go structs become Lean structures;
* Go pointers (`*registryConf`) become indices into an explicit heap
  (`List RegistryConf`), since registry entries are shared by reference
  between the `Registries` slice and the `registriesMap` index;
* Go `nil` maps and slices are distinguished from empty ones where it is
  observable: `registriesMap` has type `Option (List (String × Nat))`, with
  `none` embedding a nil Go map.  A Go write to a nil map panics at runtime
  ("assignment to entry in nil map") and is embedded as a `panicked` result;
* Go methods with a value receiver (`func (rsc registriesConf) ...`) operate
  on a copy of the receiver struct.  Writes to the copy's own fields (slice
  headers, map headers) are invisible to the caller, while writes through
  shared references (map entries, pointed-to structs) are visible.  The
  embedding reproduces exactly the caller-visible effects of each method and
  documents the dropped copy-only writes where they occur;
* functions returning Go `error` are embedded with an explicit result type
  carrying `ok`, `goError` (a returned error value) or `panicked` outcomes.
-/

namespace SystemConfig

/-- Outcome of a Go computation that may panic.  A panic unwinds the calling
goroutine (there is no `recover` in this package), so no post-panic state is
observable; the constructor carries only the runtime panic message. -/
inductive GoResult (α : Type) where
  | ok (val : α)
  | panicked (msg : String)
deriving DecidableEq

/-- Sequencing of Go statements whose execution may panic. -/
def GoResult.andThen {α β : Type} : GoResult α → (α → GoResult β) → GoResult β
  | .panicked msg, _ => .panicked msg
  | .ok v, f => f v

/-- The runtime message of a Go write to a nil map. -/
def nilMapPanicMsg : String := "assignment to entry in nil map"

/-- Lookup in an association list embedding a Go `map[string]α` (non-nil). -/
def assocLookup {α : Type} : List (String × α) → String → Option α
  | [], _ => none
  | (k2, v) :: rest, k => if k2 = k then some v else assocLookup rest k

/-- Key update/insert in an association list embedding a Go map write
`m[k] = v` on a non-nil map. -/
def assocSet {α : Type} : List (String × α) → String → α → List (String × α)
  | [], k, v => [(k, v)]
  | (k2, v2) :: rest, k, v =>
    if k2 = k then (k2, v) :: rest else (k2, v2) :: assocSet rest k v

/-- Embeds Go `registryConf` (part_001 lines 81-89).  The Go field `Prefix`
is called `pfx` here because `prefix` is a reserved notation keyword in Lean.
The three `*bool` fields embed as `Option Bool` (`none` = Go nil pointer,
omitted from the serialized output). -/
structure RegistryConf where
  location : String
  pfx : String
  mirrors : List String
  blocked : Option Bool
  allowed : Option Bool
  insecure : Option Bool
deriving DecidableEq

/-- The Go zero value `registryConf{}`. -/
def emptyRegistryConf : RegistryConf :=
  { location := "", pfx := "", mirrors := [], blocked := none,
    allowed := none, insecure := none }

/-- Dereference of a registry-entry pointer (heap index).  Registry entries
are only ever addressed through pointers obtained from the map or the slice,
which always point into the heap; out-of-range reads return the zero value. -/
def heapGet (heap : List RegistryConf) (ptr : Nat) : RegistryConf :=
  heap.getD ptr emptyRegistryConf

/-- Mutation through a registry-entry pointer (`rc.Field = v` in Go). -/
def heapModify (heap : List RegistryConf) (ptr : Nat)
    (f : RegistryConf → RegistryConf) : List RegistryConf :=
  heap.set ptr (f (heapGet heap ptr))

/-- Embeds Go `registriesConf` (part_001 lines 53-58).  `registries` is the
`Registries` slice of pointers; `registriesMap` is the unexported by-location
index, `none` embedding a nil Go map. -/
structure RegistriesConf where
  unqualifiedSearchRegistries : List String
  shortNameMode : String
  registries : List Nat
  registriesMap : Option (List (String × Nat))
deriving DecidableEq

/-- Embeds Go `defaultRegistriesConf` (part_001 lines 92-97).  The struct
literal sets only the two serialized global fields; `Registries` and
`registriesMap` keep their Go zero values, a nil slice and a nil map.  No
code in the package ever allocates `registriesMap` with `make`. -/
def defaultRegistriesConf : RegistriesConf :=
  { unqualifiedSearchRegistries := ["registry.access.redhat.com", "docker.io"],
    shortNameMode := "",
    registries := [],
    registriesMap := none }

/-- Embeds Go `registriesConf.getRegistryConfOrCreate` (part_001 lines
60-70), including its value-receiver semantics:

* lookup in a nil map yields the nil pointer, so the create branch is taken
  and the subsequent map write `rsc.registriesMap[registry] = rc` panics;
* on a non-nil map the map write is visible to the caller (the map header is
  shared between the receiver copy and the caller's struct), but the
  following `rsc.Registries = append(rsc.Registries, rc)` only overwrites
  the slice header of the method's copy of the struct, so the caller's
  `Registries` field is left unchanged — it is deliberately not updated
  here;
* the created entry is `&registryConf{Location: registry}`, a fresh heap
  cell whose other fields are zero values.

Returns the pointer together with the caller-visible registriesConf and
heap. -/
def RegistriesConf.getRegistryConfOrCreate (rsc : RegistriesConf)
    (heap : List RegistryConf) (registry : String) :
    GoResult (Nat × RegistriesConf × List RegistryConf) :=
  match rsc.registriesMap with
  | none => .panicked nilMapPanicMsg
  | some m =>
    match assocLookup m registry with
    | some ptr => .ok (ptr, rsc, heap)
    | none =>
      .ok (heap.length,
           { rsc with registriesMap := some (assocSet m registry heap.length) },
           heap ++ [{ emptyRegistryConf with location := registry }])

/-- Embeds Go `registriesConf.getRegistryConf` (part_001 lines 76-79): a
plain map lookup; reading a nil map is legal in Go and reports the key as
absent. -/
def RegistriesConf.getRegistryConf (rsc : RegistriesConf) (registry : String) :
    Option Nat :=
  match rsc.registriesMap with
  | none => none
  | some m => assocLookup m registry

/-- Embeds Go `policyEntry` (part_001 lines 164-166). -/
structure PolicyEntry where
  type : String
deriving DecidableEq

/-- Embeds Go `insecureAcceptAnythingPolicyEntry()`. -/
def insecureAcceptAnythingPolicyEntry : PolicyEntry :=
  { type := "insecureAcceptAnything" }

/-- Embeds Go `rejectPolicyEntry()`. -/
def rejectPolicyEntry : PolicyEntry := { type := "reject" }

/-- Go constant `dockerDaemonTransport`. -/
def dockerDaemonTransport : String := "docker-daemon"

/-- Go constant `dockerTransport`. -/
def dockerTransport : String := "docker"

/-- Go constant `atomicTransport`. -/
def atomicTransport : String := "atomic"

/-- Embeds Go `policyConf` (part_001 lines 106-109).  The nested Go map
`map[string]map[string][]policyEntry` is embedded as nested association
lists; in every state this package constructs, the outer map and all inner
maps are non-nil (they come from `defaultTransports()`), so no `Option`
layer is needed for them — a missing outer key still embeds the Go nil
inner map, see `setRejectForRegistryOnTransport`. -/
structure PolicyConf where
  default : List PolicyEntry
  transports : List (String × List (String × List PolicyEntry))
deriving DecidableEq

/-- Embeds Go `defaultTransports()` (part_001 lines 140-150). -/
def defaultTransports : List (String × List (String × List PolicyEntry)) :=
  [(dockerDaemonTransport, [("", [insecureAcceptAnythingPolicyEntry])]),
   (atomicTransport, []),
   (dockerTransport, [])]

/-- Embeds Go `defaultPolicyConf()` (part_001 lines 131-138). -/
def defaultPolicyConf : PolicyConf :=
  { default := [insecureAcceptAnythingPolicyEntry],
    transports := defaultTransports }

/-- Embeds Go `policyConf.resetTransports` (part_001 lines 111-113).  The
method has a VALUE receiver, so `pc.Transports = defaultTransports()`
overwrites the map header of the method's own copy of the struct; the
caller's policyConf is unchanged.  The caller-visible behaviour is the
identity. -/
def PolicyConf.resetTransports (pc : PolicyConf) : PolicyConf :=
  let _methodCopy : PolicyConf := { pc with transports := defaultTransports }
  pc

/-- Embeds Go `policyConf.setRejectForRegistryOnTransport` (part_001 lines
120-124).  The write `pc.Transports[transport][registry] = ...` mutates the
inner map shared through the (copied) outer map header, so it is visible to
the caller; if `transport` were absent the inner map would be Go nil and the
write would panic. -/
def PolicyConf.setRejectForRegistryOnTransport (pc : PolicyConf)
    (registry transport : String) : GoResult PolicyConf :=
  match assocLookup pc.transports transport with
  | none => .panicked nilMapPanicMsg
  | some inner =>
    let inner2 := assocSet inner registry [rejectPolicyEntry]
    .ok { pc with transports := assocSet pc.transports transport inner2 }

/-- Embeds Go `policyConf.setRejectForRegistry` (part_001 lines 115-118):
sets the reject rule on the `docker` transport, then on `atomic`. -/
def PolicyConf.setRejectForRegistry (pc : PolicyConf) (registry : String) :
    GoResult PolicyConf :=
  (pc.setRejectForRegistryOnTransport registry dockerTransport).andThen
    fun pc2 => pc2.setRejectForRegistryOnTransport registry atomicTransport

/-- Embeds Go `registryCertTuple` (part_001 lines 19-22). -/
structure RegistryCertTuple where
  registry : String
  cert : String
deriving DecidableEq

/-- First-occurrence replacement of the two-character substring ".." by ":",
over the character list of a string.  This is `strings.Replace(s, "..", ":", 1)`
as called by Go `registryCertTuple.getFolderName`: scan left to right, rewrite
the first match only, pass everything else through. -/
def replaceFirstDotDot : List Char → List Char
  | [] => []
  | [c] => [c]
  | c1 :: c2 :: rest =>
    if c1 = '.' ∧ c2 = '.' then ':' :: rest
    else c1 :: replaceFirstDotDot (c2 :: rest)

/-- Whether ".." occurs as a substring (used to characterize the first
occurrence in theorems about the folder-name mapping). -/
def hasDotDot : List Char → Bool
  | [] => false
  | [_] => false
  | c1 :: c2 :: rest => (c1 = '.' && c2 = '.') || hasDotDot (c2 :: rest)

/-- Embeds Go `registryCertTuple.getFolderName` (part_001 lines 47-51). -/
def RegistryCertTuple.getFolderName (t : RegistryCertTuple) : String :=
  String.mk (replaceFirstDotDot t.registry.data)

/-- Embeds the state of Go `SystemConfigSyncer` (part_000 lines 15-22)
together with the heap of registry entries it owns.  The channel and mutex
are not part of the sequential state; operations are embedded as completed
critical sections. -/
structure SystemConfigSyncer where
  registriesConfContent : RegistriesConf
  policyConfContent : PolicyConf
  registryCertTuples : List RegistryCertTuple
  heap : List RegistryConf
deriving DecidableEq

/-- Result of one mutation-API call: a normal return carries the
caller-visible post state; a returned non-nil Go `error` carries its message
and the (unmutated-so-far) state at the return point; a panic carries only
the runtime message. -/
inductive SyncerResult where
  | ok (s : SystemConfigSyncer)
  | goError (msg : String) (s : SystemConfigSyncer)
  | panicked (msg : String)
deriving DecidableEq

/-- Embeds Go `newSystemConfigSyncer()` (part_000 lines 151-160), the state
of the freshly constructed singleton. -/
def newSystemConfigSyncer : SystemConfigSyncer :=
  { registriesConfContent := defaultRegistriesConf,
    policyConfContent := defaultPolicyConf,
    registryCertTuples := [],
    heap := [] }

/-- The error message of Go `StoreImageRegistryConf` when both restricted
sets are non-empty. -/
def invalidArgumentMsg : String :=
  "only one of allowedRegistries and blockedRegistries can be set. Ignoring this event"

/-- The reset loop of Go `StoreImageRegistryConf` (part_000 lines 39-43):
for each pointer in the `Registries` slice, clear the three tri-state flags
through the pointer. -/
def resetFlagsLoop : List RegistryConf → List Nat → List RegistryConf
  | heap, [] => heap
  | heap, p :: rest =>
    resetFlagsLoop
      (heapModify heap p fun rc =>
        { rc with allowed := none, blocked := none, insecure := none }) rest

/-- The allowed-registries loop of Go `StoreImageRegistryConf` (part_000
lines 48-52): get-or-create the entry, then set `Allowed = &true`,
`Blocked = nil` through the returned pointer. -/
def allowedLoop : SystemConfigSyncer → List String → GoResult SystemConfigSyncer
  | s, [] => .ok s
  | s, registry :: rest =>
    (s.registriesConfContent.getRegistryConfOrCreate s.heap registry).andThen
      fun r =>
        allowedLoop
          { s with registriesConfContent := r.2.1,
                   heap := heapModify r.2.2 r.1 fun rc =>
                     { rc with allowed := some true, blocked := none } } rest

/-- The blocked-registries loop of Go `StoreImageRegistryConf` (part_000
lines 53-58): get-or-create the entry, set `Allowed = nil`,
`Blocked = &true`, then add the reject rules on `docker` and `atomic`. -/
def blockedLoop : SystemConfigSyncer → List String → GoResult SystemConfigSyncer
  | s, [] => .ok s
  | s, registry :: rest =>
    (s.registriesConfContent.getRegistryConfOrCreate s.heap registry).andThen
      fun r =>
        ((s.policyConfContent.setRejectForRegistry registry).andThen
          fun pc2 =>
            blockedLoop
              { s with registriesConfContent := r.2.1,
                       heap := heapModify r.2.2 r.1 fun rc =>
                         { rc with allowed := none, blocked := some true },
                       policyConfContent := pc2 } rest)

/-- The insecure-registries loop of Go `StoreImageRegistryConf` (part_000
lines 59-62). -/
def insecureLoop : SystemConfigSyncer → List String → GoResult SystemConfigSyncer
  | s, [] => .ok s
  | s, registry :: rest =>
    (s.registriesConfContent.getRegistryConfOrCreate s.heap registry).andThen
      fun r =>
        insecureLoop
          { s with registriesConfContent := r.2.1,
                   heap := heapModify r.2.2 r.1 fun rc =>
                     { rc with insecure := some true } } rest

/-- The two reset statements at the start of the critical section of Go
`StoreImageRegistryConf` (part_000 lines 39-44). -/
def resetState (s : SystemConfigSyncer) : SystemConfigSyncer :=
  { s with heap := resetFlagsLoop s.heap s.registriesConfContent.registries,
           policyConfContent := s.policyConfContent.resetTransports }

/-- Embeds Go `SystemConfigSyncer.StoreImageRegistryConf` (part_000 lines
32-65): argument check before the lock, then reset loop, (no-op)
`resetTransports`, and the three apply loops in order. -/
def SystemConfigSyncer.storeImageRegistryConf (s : SystemConfigSyncer)
    (allowedRegistries blockedRegistries insecureRegistries : List String) :
    SyncerResult :=
  if 0 < allowedRegistries.length ∧ 0 < blockedRegistries.length then
    .goError invalidArgumentMsg s
  else
    match
      (allowedLoop (resetState s) allowedRegistries).andThen fun s2 =>
        (blockedLoop s2 blockedRegistries).andThen fun s3 =>
          insecureLoop s3 insecureRegistries
    with
    | .panicked msg => .panicked msg
    | .ok s4 => .ok s4

/-- Embeds Go `SystemConfigSyncer.StoreRegistryCerts` (part_000 lines
67-73): wholesale replacement of the tuple slice. -/
def SystemConfigSyncer.storeRegistryCerts (s : SystemConfigSyncer)
    (tuples : List RegistryCertTuple) : SyncerResult :=
  .ok { s with registryCertTuples := tuples }

/-- Embeds Go `SystemConfigSyncer.UpdateRegistryMirroringConfig` (part_000
lines 75-82): get-or-create the entry and replace its mirror slice through
the pointer. -/
def SystemConfigSyncer.updateRegistryMirroringConfig (s : SystemConfigSyncer)
    (registry : String) (mirrors : List String) : SyncerResult :=
  match s.registriesConfContent.getRegistryConfOrCreate s.heap registry with
  | .panicked msg => .panicked msg
  | .ok r =>
    .ok { s with registriesConfContent := r.2.1,
                 heap := heapModify r.2.2 r.1 fun rc =>
                   { rc with mirrors := mirrors } }

/-- Embeds Go `SystemConfigSyncer.DeleteRegistryMirroringConfig` (part_000
lines 84-93): on a successful index lookup, empty the entry's mirror slice;
otherwise return the not-found error without mutating anything. -/
def SystemConfigSyncer.deleteRegistryMirroringConfig (s : SystemConfigSyncer)
    (registry : String) : SyncerResult :=
  match s.registriesConfContent.getRegistryConf registry with
  | some ptr =>
    .ok { s with heap := heapModify s.heap ptr fun rc => { rc with mirrors := [] } }
  | none => .goError ("registry " ++ registry ++ " not found") s

/-- The loop of Go `CleanupRegistryMirroringConfig` (part_000 lines 98-100):
empty the mirror slice of every entry reachable from the `Registries`
slice. -/
def cleanupLoop : List RegistryConf → List Nat → List RegistryConf
  | heap, [] => heap
  | heap, p :: rest =>
    cleanupLoop (heapModify heap p fun rc => { rc with mirrors := [] }) rest

/-- Embeds Go `SystemConfigSyncer.CleanupRegistryMirroringConfig` (part_000
lines 95-103). -/
def SystemConfigSyncer.cleanupRegistryMirroringConfig (s : SystemConfigSyncer) :
    SyncerResult :=
  .ok { s with heap := cleanupLoop s.heap s.registriesConfContent.registries }

/-- One completed mutation-API call: the transition relation of the model.
Error returns leave the state unchanged and panics abort the goroutine, so
the reachable states are connected by `ok` results. -/
inductive SyncerStep : SystemConfigSyncer → SystemConfigSyncer → Prop where
  | storePolicy {s s2 : SystemConfigSyncer} (a b i : List String) :
      s.storeImageRegistryConf a b i = .ok s2 → SyncerStep s s2
  | storeCerts {s s2 : SystemConfigSyncer} (ts : List RegistryCertTuple) :
      s.storeRegistryCerts ts = .ok s2 → SyncerStep s s2
  | updateMirrors {s s2 : SystemConfigSyncer} (r : String) (m : List String) :
      s.updateRegistryMirroringConfig r m = .ok s2 → SyncerStep s s2
  | deleteMirrors {s s2 : SystemConfigSyncer} (r : String) :
      s.deleteRegistryMirroringConfig r = .ok s2 → SyncerStep s s2
  | cleanupMirrors {s s2 : SystemConfigSyncer} :
      s.cleanupRegistryMirroringConfig = .ok s2 → SyncerStep s s2

/-- States reachable from the freshly constructed syncer via completed
mutation-API calls. -/
inductive SyncerReachable : SystemConfigSyncer → Prop where
  | init : SyncerReachable newSystemConfigSyncer
  | step {s s2 : SystemConfigSyncer} :
      SyncerReachable s → SyncerStep s s2 → SyncerReachable s2

/-! ### Basic lemmas about the operations -/

theorem getOrCreate_nilMap {rsc : RegistriesConf}
    (h : rsc.registriesMap = none) (heap : List RegistryConf) (r : String) :
    rsc.getRegistryConfOrCreate heap r = .panicked nilMapPanicMsg := by
  unfold RegistriesConf.getRegistryConfOrCreate
  rw [h]

theorem allowedLoop_cons_nilMap {s : SystemConfigSyncer}
    (h : s.registriesConfContent.registriesMap = none) (r : String)
    (rest : List String) :
    allowedLoop s (r :: rest) = .panicked nilMapPanicMsg := by
  unfold allowedLoop
  rw [getOrCreate_nilMap h]
  rfl

theorem blockedLoop_cons_nilMap {s : SystemConfigSyncer}
    (h : s.registriesConfContent.registriesMap = none) (r : String)
    (rest : List String) :
    blockedLoop s (r :: rest) = .panicked nilMapPanicMsg := by
  unfold blockedLoop
  rw [getOrCreate_nilMap h]
  rfl

theorem insecureLoop_cons_nilMap {s : SystemConfigSyncer}
    (h : s.registriesConfContent.registriesMap = none) (r : String)
    (rest : List String) :
    insecureLoop s (r :: rest) = .panicked nilMapPanicMsg := by
  unfold insecureLoop
  rw [getOrCreate_nilMap h]
  rfl

theorem resetState_default {s : SystemConfigSyncer}
    (h : s.registriesConfContent = defaultRegistriesConf) : resetState s = s := by
  have hreg : s.registriesConfContent.registries = [] := by rw [h]; rfl
  simp [resetState, hreg, resetFlagsLoop, PolicyConf.resetTransports]

theorem store_ok_inv {s s2 : SystemConfigSyncer} {a b i : List String}
    (h1 : s.registriesConfContent = defaultRegistriesConf)
    (hok : s.storeImageRegistryConf a b i = .ok s2) : s2 = s := by
  have hmap : s.registriesConfContent.registriesMap = none := by rw [h1]; rfl
  unfold SystemConfigSyncer.storeImageRegistryConf at hok
  rw [resetState_default h1] at hok
  rcases a with _ | ⟨x, xs⟩
  · rcases b with _ | ⟨y, ys⟩
    · rcases i with _ | ⟨z, zs⟩
      · simp [allowedLoop, blockedLoop, insecureLoop, GoResult.andThen] at hok
        exact hok.symm
      · rw [if_neg (by simp)] at hok
        rw [show allowedLoop s [] = .ok s from rfl] at hok
        simp only [GoResult.andThen] at hok
        rw [show blockedLoop s [] = .ok s from rfl] at hok
        simp only [GoResult.andThen] at hok
        rw [insecureLoop_cons_nilMap hmap] at hok
        simp at hok
    · rw [if_neg (by simp)] at hok
      rw [show allowedLoop s [] = .ok s from rfl] at hok
      simp only [GoResult.andThen] at hok
      rw [blockedLoop_cons_nilMap hmap] at hok
      simp [GoResult.andThen] at hok
  · rcases b with _ | ⟨y, ys⟩
    · rw [if_neg (by simp)] at hok
      rw [allowedLoop_cons_nilMap hmap] at hok
      simp [GoResult.andThen] at hok
    · rw [if_pos (by simp)] at hok
      simp at hok

theorem update_not_ok {s s2 : SystemConfigSyncer} {r : String} {m : List String}
    (hmap : s.registriesConfContent.registriesMap = none)
    (hok : s.updateRegistryMirroringConfig r m = .ok s2) : False := by
  unfold SystemConfigSyncer.updateRegistryMirroringConfig at hok
  rw [getOrCreate_nilMap hmap] at hok
  simp at hok

theorem delete_not_ok {s s2 : SystemConfigSyncer} {r : String}
    (hmap : s.registriesConfContent.registriesMap = none)
    (hok : s.deleteRegistryMirroringConfig r = .ok s2) : False := by
  unfold SystemConfigSyncer.deleteRegistryMirroringConfig at hok
  unfold RegistriesConf.getRegistryConf at hok
  rw [hmap] at hok
  simp at hok

/-- Every state reachable via completed mutation-API calls from the fresh
syncer keeps the default registries model, the default policy and an empty
heap: the index map is a Go nil map that no code path ever allocates, so any
operation that would create a registry entry panics instead of completing,
and `resetTransports`, called on a value receiver, never changes the
caller's policy.  Only the certificate tuples can change. -/
theorem reachable_frozen {s : SystemConfigSyncer} (h : SyncerReachable s) :
    s.registriesConfContent = defaultRegistriesConf ∧
      s.policyConfContent = defaultPolicyConf ∧ s.heap = [] := by
  induction h with
  | init => exact ⟨rfl, rfl, rfl⟩
  | step hr hstep ih =>
    obtain ⟨h1, h2, h3⟩ := ih
    cases hstep with
    | storePolicy a b i hok =>
      rw [store_ok_inv h1 hok]
      exact ⟨h1, h2, h3⟩
    | storeCerts ts hok =>
      unfold SystemConfigSyncer.storeRegistryCerts at hok
      cases hok
      exact ⟨h1, h2, h3⟩
    | updateMirrors r m hok =>
      exact (update_not_ok (by rw [h1]; rfl) hok).elim
    | deleteMirrors r hok =>
      exact (delete_not_ok (by rw [h1]; rfl) hok).elim
    | cleanupMirrors hok =>
      unfold SystemConfigSyncer.cleanupRegistryMirroringConfig at hok
      cases hok
      refine ⟨h1, h2, ?_⟩
      rw [h1]
      exact h3

/-! ### Observables of the model used by the spec's invariants -/

/-- All registry-entry pointers the model references: the ordered
`Registries` sequence plus the values of the by-location index map. -/
def visibleEntryPtrs (s : SystemConfigSyncer) : List Nat :=
  s.registriesConfContent.registries ++
    (match s.registriesConfContent.registriesMap with
     | none => []
     | some m => m.map fun kv => kv.2)

/-- Registry `r` is currently blocked: some referenced entry has location
`r` and its `Blocked` flag set to true. -/
def registryIsBlocked (s : SystemConfigSyncer) (r : String) : Bool :=
  (visibleEntryPtrs s).any fun p =>
    (heapGet s.heap p).location == r && (heapGet s.heap p).blocked == some true

/-- A reject rule for registry `r` exists on the given transport of the
policy model. -/
def transportHasReject (pc : PolicyConf) (transport r : String) : Bool :=
  match assocLookup pc.transports transport with
  | none => false
  | some inner =>
    match assocLookup inner r with
    | none => false
    | some rules => rules.contains rejectPolicyEntry

/-- The by-location index references exactly the entries of the ordered
`Registries` sequence: every pointer in the sequence is a value of the map,
every value of the map is in the sequence, and each map key is the location
of the entry it points to. -/
def indexMirrorsSequence (s : SystemConfigSyncer) : Prop :=
  (∀ p, p ∈ s.registriesConfContent.registries ↔
    ∃ k, s.registriesConfContent.getRegistryConf k = some p) ∧
  (∀ k p, s.registriesConfContent.getRegistryConf k = some p →
    (heapGet s.heap p).location = k)

/-! ### The persistence pass (`SystemConfigSyncer.sync`) -/

/-- The on-disk artifacts the persistence pass maintains.  The two
configuration files hold the serialized model snapshot (serialization is
embedded as the snapshot itself, which is faithful for ordering and abort
behaviour); the certificate tree is the list of `(folder name, ca.crt
content)` pairs under the trust directory. -/
structure Disk where
  registriesFile : Option (RegistriesConf × List RegistryConf)
  policyFile : Option PolicyConf
  certFiles : List (String × String)
deriving DecidableEq

/-- Which filesystem operations of one pass fail.  Each failing step returns
an error and leaves its own artifact as it was (partial writes are below
this model's abstraction level); the point proved about the pass is which
steps run at all and what the completed steps wrote. -/
structure FailOracle where
  registriesWriteFails : Bool
  policyWriteFails : Bool
  removeCertsFails : Bool
  certWriteFails : Nat → Bool

/-- The step of `sync` whose error aborted the pass. -/
inductive SyncError where
  | registriesWrite
  | policyWrite
  | removeCerts
  | certWrite (idx : Nat)
deriving DecidableEq

/-- Result of one persistence pass: the in-memory model as left by the pass,
the disk, and the error that aborted it (if any). -/
structure SyncOutcome where
  syncer : SystemConfigSyncer
  disk : Disk
  err : Option SyncError
deriving DecidableEq

/-- One certificate write: create `<trust-root>/<folder-name>/` and write the
content to `ca.crt`, overwriting a previous file at the same path. -/
def certWrite (files : List (String × String)) (t : RegistryCertTuple) :
    List (String × String) :=
  assocSet files t.getFolderName t.cert

/-- The loop of Go `sync` over `registryCertTuples` (part_000 lines
124-129): write each tuple in snapshot order, stopping at the first
failure. -/
def writeCertsLoop : List RegistryCertTuple → Nat → FailOracle →
    List (String × String) → List (String × String) × Option SyncError
  | [], _, _, files => (files, none)
  | t :: rest, idx, o, files =>
    if o.certWriteFails idx then (files, some (.certWrite idx))
    else writeCertsLoop rest (idx + 1) o (certWrite files t)

/-- The disk after the first step of a pass completed. -/
def diskAfterRegistriesWrite (s : SystemConfigSyncer) (d : Disk) : Disk :=
  { d with registriesFile := some (s.registriesConfContent, s.heap) }

/-- The disk after the first two steps of a pass completed. -/
def diskAfterPolicyWrite (s : SystemConfigSyncer) (d : Disk) : Disk :=
  { diskAfterRegistriesWrite s d with policyFile := some s.policyConfContent }

/-- Embeds Go `SystemConfigSyncer.sync` (part_000 lines 105-131): write
registries.conf, then policy.json, then recursively delete the certificate
directory, then write each certificate; the first error returns
immediately.  The method reads the model and never assigns to it, so the
model is returned unchanged. -/
def SystemConfigSyncer.sync (s : SystemConfigSyncer) (o : FailOracle)
    (d : Disk) : SyncOutcome :=
  if o.registriesWriteFails then ⟨s, d, some .registriesWrite⟩
  else if o.policyWriteFails then
    ⟨s, diskAfterRegistriesWrite s d, some .policyWrite⟩
  else if o.removeCertsFails then
    ⟨s, diskAfterPolicyWrite s d, some .removeCerts⟩
  else
    ⟨s,
     { diskAfterPolicyWrite s d with
         certFiles := (writeCertsLoop s.registryCertTuples 0 o []).1 },
     (writeCertsLoop s.registryCertTuples 0 o []).2⟩

theorem writeCertsLoop_none {ts : List RegistryCertTuple} {i : Nat}
    {o : FailOracle} {fs : List (String × String)}
    (h : (writeCertsLoop ts i o fs).2 = none) :
    (writeCertsLoop ts i o fs).1 = ts.foldl certWrite fs := by
  induction ts generalizing i fs with
  | nil => rfl
  | cons t rest ih =>
    unfold writeCertsLoop at h ⊢
    by_cases hf : o.certWriteFails i
    · rw [if_pos hf] at h
      simp at h
    · rw [if_neg hf] at h ⊢
      exact ih h

theorem writeCertsLoop_fail {ts : List RegistryCertTuple} {i j : Nat}
    {o : FailOracle} {fs : List (String × String)}
    (h : (writeCertsLoop ts i o fs).2 = some (.certWrite j)) :
    i ≤ j ∧ j - i < ts.length ∧
      (writeCertsLoop ts i o fs).1 = (ts.take (j - i)).foldl certWrite fs := by
  induction ts generalizing i fs with
  | nil => simp [writeCertsLoop] at h
  | cons t rest ih =>
    unfold writeCertsLoop at h ⊢
    by_cases hf : o.certWriteFails i
    · rw [if_pos hf] at h ⊢
      simp at h
      subst h
      simp
    · rw [if_neg hf] at h ⊢
      obtain ⟨hle, hlt, heq⟩ := ih h
      have hij : i < j := lt_of_lt_of_le (Nat.lt_succ_self i) hle
      refine ⟨hij.le, ?_, ?_⟩
      · have : j - i = (j - (i + 1)) + 1 := by omega
        rw [this]
        simpa using hlt
      · have : j - i = (j - (i + 1)) + 1 := by omega
        rw [this, heq]
        rfl

theorem writeCertsLoop_err_shape {ts : List RegistryCertTuple} {i : Nat}
    {o : FailOracle} {fs : List (String × String)} :
    (writeCertsLoop ts i o fs).2 = none ∨
      ∃ j, (writeCertsLoop ts i o fs).2 = some (.certWrite j) := by
  induction ts generalizing i fs with
  | nil => exact Or.inl rfl
  | cons t rest ih =>
    unfold writeCertsLoop
    by_cases hf : o.certWriteFails i
    · rw [if_pos hf]
      exact Or.inr ⟨i, rfl⟩
    · rw [if_neg hf]
      exact ih

/-! ### The folder-name mapping -/

theorem replaceFirstDotDot_no_occurrence (l : List Char)
    (h : hasDotDot l = false) : replaceFirstDotDot l = l := by
  induction l with
  | nil => rfl
  | cons c rest ih =>
    cases rest with
    | nil => rfl
    | cons c2 r2 =>
      by_cases hc : c = '.' ∧ c2 = '.'
      · exfalso
        unfold hasDotDot at h
        rw [hc.1, hc.2] at h
        simp at h
      · unfold replaceFirstDotDot
        rw [if_neg hc]
        have h2 : hasDotDot (c2 :: r2) = false := by
          unfold hasDotDot at h
          exact (Bool.or_eq_false_iff.mp h).2
        rw [ih h2]

theorem replaceFirstDotDot_first_occurrence (a b : List Char)
    (h : hasDotDot (a ++ ['.']) = false) :
    replaceFirstDotDot (a ++ '.' :: '.' :: b) = a ++ ':' :: b := by
  induction a with
  | nil => simp [replaceFirstDotDot]
  | cons c rest ih =>
    cases rest with
    | nil =>
      have hc : ¬(c = '.') := by
        intro hcc
        rw [List.cons_append, List.nil_append] at h
        unfold hasDotDot at h
        rw [hcc] at h
        simp at h
      rw [List.cons_append, List.nil_append]
      unfold replaceFirstDotDot
      rw [if_neg (fun hand => hc hand.1)]
      have htail : replaceFirstDotDot ('.' :: '.' :: b) = ':' :: b := by
        simp [replaceFirstDotDot]
      rw [htail]
      rfl
    | cons c2 r2 =>
      rw [List.cons_append] at h ⊢
      rw [List.cons_append] at h ⊢
      have hcc : ¬(c = '.' ∧ c2 = '.') := by
        intro hand
        unfold hasDotDot at h
        rw [hand.1, hand.2] at h
        simp at h
      have htail : hasDotDot ((c2 :: r2) ++ ['.']) = false := by
        unfold hasDotDot at h
        exact (Bool.or_eq_false_iff.mp h).2
      unfold replaceFirstDotDot
      rw [if_neg hcc]
      rw [show (c2 :: r2) ++ '.' :: '.' :: b = c2 :: (r2 ++ '.' :: '.' :: b) from rfl] at ih
      rw [ih htail]
      rfl

/-- A failure oracle whose only failing step is the policy write. -/
def oracleFailPolicy : FailOracle :=
  { registriesWriteFails := false, policyWriteFails := true,
    removeCertsFails := false, certWriteFails := fun _ => false }

/-- An empty disk: no artifacts present. -/
def emptyDisk : Disk :=
  { registriesFile := none, policyFile := none, certFiles := [] }

/-! ### Helper classifiers for results -/

/-- The call returned a non-nil Go `error` value (a typed failure). -/
def SyncerResult.isTypedFailure : SyncerResult → Bool
  | .goError _ _ => true
  | _ => false

/-- The call returned normally (`return nil`). -/
def SyncerResult.isOk : SyncerResult → Bool
  | .ok _ => true
  | _ => false

theorem store_not_goError_of_cond_false {s : SystemConfigSyncer}
    {a b i : List String} (hc : ¬(0 < a.length ∧ 0 < b.length))
    (msg : String) (s2 : SystemConfigSyncer) :
    s.storeImageRegistryConf a b i ≠ .goError msg s2 := by
  unfold SystemConfigSyncer.storeImageRegistryConf
  rw [if_neg hc]
  split <;> simp

/-! ### Claim theorems -/

/-- C1: the spec says a `SetRegistryPolicy` call with disjoint non-empty
sets stores allowed=true / blocked=true / insecure=true on the named
entries (creating them on demand) and reject rules for blocked registries.
The code cannot do this: `registriesMap` is a nil Go map that is never
allocated, so the first `getRegistryConfOrCreate` of any listed registry
panics with "assignment to entry in nil map" before any flag or rule is
stored.  Evaluation of the embedded operation at the failing inputs from
the fresh default state. -/
theorem storeImageRegistryConf_panics_on_nonempty_sets :
    newSystemConfigSyncer.storeImageRegistryConf ["docker.io"] [] [] =
      .panicked nilMapPanicMsg ∧
    newSystemConfigSyncer.storeImageRegistryConf [] ["quay.io"] [] =
      .panicked nilMapPanicMsg ∧
    newSystemConfigSyncer.storeImageRegistryConf [] [] ["registry.internal"] =
      .panicked nilMapPanicMsg :=
  ⟨rfl, rfl, rfl⟩

/-- C2: in every reachable state, a reject rule for R exists on the
`docker` and `atomic` transports iff R is currently blocked; and after
every successful `SetRegistryPolicy` call the per-transport rule lists are
the defaults, so a registry blocked before the call and not listed as
blocked in it has no reject rule afterwards.  (This holds degenerately: a
successful call can never process a non-empty registry list, because entry
creation panics on the nil index map, so transports never leave their
defaults and no entry is ever blocked.) -/
theorem reject_rule_iff_blocked {s : SystemConfigSyncer}
    (h : SyncerReachable s) (r : String) :
    ((transportHasReject s.policyConfContent dockerTransport r = true ∧
      transportHasReject s.policyConfContent atomicTransport r = true) ↔
      registryIsBlocked s r = true) ∧
    (∀ a b i s2, s.storeImageRegistryConf a b i = .ok s2 →
      s2.policyConfContent.transports = defaultTransports ∧
      (registryIsBlocked s r = true → r ∉ b →
        transportHasReject s2.policyConfContent dockerTransport r = false ∧
        transportHasReject s2.policyConfContent atomicTransport r = false)) := by
  obtain ⟨h1, h2, h3⟩ := reachable_frozen h
  have hd : transportHasReject s.policyConfContent dockerTransport r = false := by
    rw [h2]
    rfl
  have ha : transportHasReject s.policyConfContent atomicTransport r = false := by
    rw [h2]
    rfl
  have hb : registryIsBlocked s r = false := by
    unfold registryIsBlocked visibleEntryPtrs
    rw [h1]
    rfl
  constructor
  · rw [hd, ha, hb]
    simp
  · intro a b i s2 hok
    have hs2 : s2 = s := store_ok_inv h1 hok
    subst hs2
    refine ⟨by rw [h2]; rfl, fun hblocked _ => ?_⟩
    rw [hb] at hblocked
    cases hblocked

/-- Witness for C2 at the initial state and a concrete registry. -/
theorem reject_rule_iff_blocked_witness :
    (transportHasReject newSystemConfigSyncer.policyConfContent
        dockerTransport "docker.io" = true ∧
      transportHasReject newSystemConfigSyncer.policyConfContent
        atomicTransport "docker.io" = true) ↔
      registryIsBlocked newSystemConfigSyncer "docker.io" = true :=
  (reject_rule_iff_blocked SyncerReachable.init "docker.io").1

/-- C3: in every reachable state the by-location index map references
exactly the entries of the ordered `Registries` sequence.  (Both are empty
in every reachable state: the nil index map makes every entry-creating
operation panic, and the value-receiver `append` could in any case never
have updated the caller's sequence.) -/
theorem index_mirrors_sequence {s : SystemConfigSyncer}
    (h : SyncerReachable s) : indexMirrorsSequence s := by
  obtain ⟨h1, h2, h3⟩ := reachable_frozen h
  constructor
  · intro p
    constructor
    · intro hp
      rw [h1] at hp
      simp [defaultRegistriesConf] at hp
    · rintro ⟨k, hk⟩
      rw [h1] at hk
      simp [RegistriesConf.getRegistryConf, defaultRegistriesConf] at hk
  · intro k p hk
    rw [h1] at hk
    simp [RegistriesConf.getRegistryConf, defaultRegistriesConf] at hk

/-- Witness for C3 at the initial state. -/
theorem index_mirrors_sequence_witness :
    indexMirrorsSequence newSystemConfigSyncer :=
  index_mirrors_sequence SyncerReachable.init

/-- C4: the spec says `SetMirrors` succeeds from any reachable state,
creating the entry if absent — in particular from the freshly constructed
default model.  The code panics instead: the entry is absent from the nil
index map and `getRegistryConfOrCreate`'s map write panics.  Evaluation at
the failing input. -/
theorem updateRegistryMirroringConfig_panics_from_default :
    newSystemConfigSyncer.updateRegistryMirroringConfig "docker.io"
      ["mirror.example.com"] = .panicked nilMapPanicMsg :=
  rfl

/-- C5: `StoreImageRegistryConf` returns its InvalidArgument error exactly
when the allowed and blocked lists are both non-empty, and in that case the
error is returned before the lock is even taken, with the model untouched
(the returned state is the input state). -/
theorem storeImageRegistryConf_invalidArgument_iff (s : SystemConfigSyncer)
    (a b i : List String) :
    (s.storeImageRegistryConf a b i = .goError invalidArgumentMsg s ↔
      (a ≠ [] ∧ b ≠ [])) ∧
    (∀ msg s2, s.storeImageRegistryConf a b i = .goError msg s2 →
      msg = invalidArgumentMsg ∧ s2 = s) := by
  by_cases hc : 0 < a.length ∧ 0 < b.length
  · have heq : s.storeImageRegistryConf a b i = .goError invalidArgumentMsg s := by
      unfold SystemConfigSyncer.storeImageRegistryConf
      rw [if_pos hc]
    refine ⟨⟨fun _ => ⟨List.length_pos.mp hc.1, List.length_pos.mp hc.2⟩,
             fun _ => heq⟩, ?_⟩
    intro msg s2 hmsg
    rw [heq] at hmsg
    cases hmsg
    exact ⟨rfl, rfl⟩
  · refine ⟨⟨fun hcontra =>
        absurd hcontra (store_not_goError_of_cond_false hc _ _),
      fun hab =>
        absurd ⟨List.length_pos.mpr hab.1, List.length_pos.mpr hab.2⟩ hc⟩,
      fun msg s2 hmsg =>
        absurd hmsg (store_not_goError_of_cond_false hc _ _)⟩

/-- Witness for C5: both sets non-empty yields the error with the state
unchanged. -/
theorem storeImageRegistryConf_invalidArgument_iff_witness :
    newSystemConfigSyncer.storeImageRegistryConf ["quay.io"] ["docker.io"] [] =
      .goError invalidArgumentMsg newSystemConfigSyncer :=
  (storeImageRegistryConf_invalidArgument_iff newSystemConfigSyncer
    ["quay.io"] ["docker.io"] []).1.mpr ⟨by simp, by simp⟩

/-- C6: the spec's composite law — `SetMirrors(r, m)` then `ClearMirrors(r)`
leaves r with an empty mirror list — cannot hold: the first step panics on
the nil index map from every reachable state, so the composite never
completes.  (The NotFound half does hold: `ClearMirrors` on the unknown
registry returns the not-found error carrying the unchanged state.)
Evaluation of both calls at the failing input. -/
theorem setMirrors_then_clearMirrors_impossible :
    newSystemConfigSyncer.updateRegistryMirroringConfig "registry.io" ["m1"] =
      .panicked nilMapPanicMsg ∧
    newSystemConfigSyncer.deleteRegistryMirroringConfig "registry.io" =
      .goError "registry registry.io not found" newSystemConfigSyncer :=
  ⟨rfl, rfl⟩

/-- C7: a persistence pass runs its four steps in the fixed order, the
first failing step aborts all later steps leaving their artifacts exactly
as before the pass, certificate writes happen in snapshot order stopping at
the first failure, and the in-memory model is never changed by a pass. -/
theorem sync_order_and_abort (s : SystemConfigSyncer) (o : FailOracle)
    (d : Disk) :
    ((s.sync o d).syncer = s) ∧
    ((s.sync o d).err = some .registriesWrite → (s.sync o d).disk = d) ∧
    ((s.sync o d).err = some .policyWrite →
      (s.sync o d).disk = diskAfterRegistriesWrite s d) ∧
    ((s.sync o d).err = some .removeCerts →
      (s.sync o d).disk = diskAfterPolicyWrite s d) ∧
    (∀ j, (s.sync o d).err = some (.certWrite j) →
      j < s.registryCertTuples.length ∧
      (s.sync o d).disk =
        { diskAfterPolicyWrite s d with
            certFiles := (s.registryCertTuples.take j).foldl certWrite [] }) ∧
    ((s.sync o d).err = none →
      (s.sync o d).disk =
        { diskAfterPolicyWrite s d with
            certFiles := s.registryCertTuples.foldl certWrite [] }) := by
  unfold SystemConfigSyncer.sync
  by_cases h1 : o.registriesWriteFails = true
  · rw [if_pos h1]
    exact ⟨rfl, fun _ => rfl, fun h => by simp at h, fun h => by simp at h,
           fun j h => by simp at h, fun h => by simp at h⟩
  · rw [if_neg h1]
    by_cases h2 : o.policyWriteFails = true
    · rw [if_pos h2]
      exact ⟨rfl, fun h => by simp at h, fun _ => rfl, fun h => by simp at h,
             fun j h => by simp at h, fun h => by simp at h⟩
    · rw [if_neg h2]
      by_cases h3 : o.removeCertsFails = true
      · rw [if_pos h3]
        exact ⟨rfl, fun h => by simp at h, fun h => by simp at h,
               fun _ => rfl, fun j h => by simp at h, fun h => by simp at h⟩
      · rw [if_neg h3]
        rcases @writeCertsLoop_err_shape s.registryCertTuples 0 o [] with
          hnone | ⟨j0, hj0⟩
        · refine ⟨rfl, fun h => ?_, fun h => ?_, fun h => ?_, fun j h => ?_,
                  fun _ => ?_⟩
          · rw [hnone] at h
            cases h
          · rw [hnone] at h
            cases h
          · rw [hnone] at h
            cases h
          · rw [hnone] at h
            cases h
          · have hfold := writeCertsLoop_none hnone
            rw [hfold]
        · refine ⟨rfl, fun h => ?_, fun h => ?_, fun h => ?_, fun j h => ?_,
                  fun h => ?_⟩
          · rw [hj0] at h
            simp at h
          · rw [hj0] at h
            simp at h
          · rw [hj0] at h
            simp at h
          · rw [hj0] at h
            simp at h
            subst h
            obtain ⟨hle, hlt, heq⟩ := writeCertsLoop_fail hj0
            refine ⟨by simpa using hlt, ?_⟩
            rw [heq]
            simp
          · rw [hj0] at h
            cases h

/-- Witness for C7: a pass whose second step fails leaves the certificate
tree and the policy artifact untouched and the first artifact written. -/
theorem sync_order_and_abort_witness :
    (newSystemConfigSyncer.sync oracleFailPolicy emptyDisk).disk =
      diskAfterRegistriesWrite newSystemConfigSyncer emptyDisk :=
  (sync_order_and_abort newSystemConfigSyncer oracleFailPolicy emptyDisk).2.2.1 rfl

/-- C8: the folder-name mapping replaces exactly the first occurrence of
".." with ":" and passes all other characters through: a name with no ".."
maps to itself, the first occurrence (the one not preceded anywhere by
another occurrence) is rewritten, and the spec's two examples evaluate as
stated. -/
theorem getFolderName_replaces_first_dotdot :
    (∀ t : RegistryCertTuple, hasDotDot t.registry.data = false →
      t.getFolderName = t.registry) ∧
    (∀ a b : List Char, hasDotDot (a ++ ['.']) = false →
      replaceFirstDotDot (a ++ '.' :: '.' :: b) = a ++ ':' :: b) ∧
    RegistryCertTuple.getFolderName
      { registry := "docker.io..5000", cert := "" } = "docker.io:5000" ∧
    RegistryCertTuple.getFolderName
      { registry := "docker.io", cert := "" } = "docker.io" := by
  refine ⟨?_, replaceFirstDotDot_first_occurrence, rfl, rfl⟩
  intro t h
  unfold RegistryCertTuple.getFolderName
  rw [replaceFirstDotDot_no_occurrence _ h]

/-- Witness for C8 at concrete character lists. -/
theorem getFolderName_replaces_first_dotdot_witness :
    replaceFirstDotDot (['a'] ++ '.' :: '.' :: ['b']) = ['a'] ++ ':' :: ['b'] :=
  getFolderName_replaces_first_dotdot.2.1 ['a'] ['b'] rfl

/-- C10: `StoreRegistryCerts` and `CleanupRegistryMirroringConfig` return
success from every state and every input, and none of the mirroring/cert
operations other than `StoreImageRegistryConf` and
`DeleteRegistryMirroringConfig` can return a typed failure (a Go error
value); in particular `UpdateRegistryMirroringConfig` never returns one. -/
theorem storeCerts_and_cleanup_never_fail (s : SystemConfigSyncer)
    (ts : List RegistryCertTuple) (r : String) (m : List String) :
    (s.storeRegistryCerts ts).isOk = true ∧
    (s.cleanupRegistryMirroringConfig).isOk = true ∧
    (s.storeRegistryCerts ts).isTypedFailure = false ∧
    (s.cleanupRegistryMirroringConfig).isTypedFailure = false ∧
    (s.updateRegistryMirroringConfig r m).isTypedFailure = false := by
  refine ⟨rfl, rfl, rfl, rfl, ?_⟩
  unfold SystemConfigSyncer.updateRegistryMirroringConfig
  split <;> rfl

end SystemConfig
